import Mathlib

/-!
# Verification of the polish-trainer-pwa core

A shallow embedding in Lean 4 of the logic-bearing parts of the repository:

* `src/utils/checkAnswer.ts` (the answer normalizer/matcher),
* `src/utils/pickRandom.ts` (the random selector),
* `src/App.tsx` (`nextRandom`, the advance-to-next orchestration),
* `src/components/ExerciseCard.tsx` (the exercise interaction state
  machine: `handleCheck`, `handleEnter`, `handleKeyDown`, the reset
  effect, and the `shootConfetti` particle animation).

JavaScript strings are modelled as Lean `String`/`List Char` (the inputs
under study are ASCII), JavaScript numbers as `ℚ` (the arithmetic in the
source stays exact on the rationals involved), `Math.random()` draws as an
explicit stream `ℕ → ℚ` of values assumed in `[0, 1)`, and out-of-bounds
array access (which yields `undefined` in JavaScript) as `Option.none`.
The React `useState` cell triple of `ExerciseCard` becomes an explicit
`CardState` record threaded through the event handlers.
-/

namespace PolishTrainer

/-! ## Answer normalizer/matcher — `src/utils/checkAnswer.ts`

```ts
function normalize(s: string) {
    return s.trim().toLowerCase().replace(/\s+/g, " ");
}
export function checkAnswer(user: string, correct: string) {
    return normalize(user) === normalize(correct);
}
```
-/

/-- The character class of the regex `\s` and of `String.prototype.trim`,
restricted to the ASCII range (the repository's data is ASCII/Latin). -/
def isJsWhitespace (c : Char) : Bool :=
  c = ' ' || c = '\t' || c = '\n' || c = '\r' || c = '\x0b' || c = '\x0c'

/-- `s.trim()` on the character list: drop leading and trailing whitespace. -/
def jsTrimList (l : List Char) : List Char :=
  (l.dropWhile isJsWhitespace).reverse.dropWhile isJsWhitespace |>.reverse

/-- `s.trim()` on strings. -/
def jsTrim (s : String) : String :=
  ⟨jsTrimList s.data⟩

/-- `s.replace(/\s+/g, " ")` scanned left to right: the flag records
whether the scanner is inside a whitespace run (whose first character
already emitted the single replacement space). -/
def collapseWsAux : Bool → List Char → List Char
  | _, [] => []
  | inRun, c :: rest =>
    if isJsWhitespace c then
      if inRun then collapseWsAux true rest
      else ' ' :: collapseWsAux true rest
    else
      c :: collapseWsAux false rest

/-- `s.replace(/\s+/g, " ")`: collapse every maximal run of whitespace
characters to a single space. -/
def collapseWs (l : List Char) : List Char :=
  collapseWsAux false l

/-- `normalize` from `checkAnswer.ts`: trim, lower-case, collapse
whitespace runs to one space (in source order). -/
def normalize (s : String) : String :=
  ⟨collapseWs ((jsTrimList s.data).map Char.toLower)⟩

/-- `checkAnswer` from `checkAnswer.ts`: equality of normalized forms. -/
def checkAnswer (user correct : String) : Bool :=
  normalize user == normalize correct

/-! ## Random selector — `src/utils/pickRandom.ts`

```ts
export function pickRandom<T>(items: T[]): T {
    const idx = Math.floor(Math.random() * items.length);
    return items[idx];
}
```

`Math.random()` is made an explicit argument `rand`; `items[idx]` out of
bounds yields `undefined`, modelled as `none`. -/

/-- JavaScript array indexing `l[i]` with an integer index: `undefined`
(here `none`) when the index is out of bounds, on either side. -/
def jsIndex {α : Type} (l : List α) (i : ℤ) : Option α :=
  if i < 0 then none else l.get? i.toNat

/-- `pickRandom` from `pickRandom.ts`, with the `Math.random()` draw made
explicit. -/
def pickRandom {α : Type} (items : List α) (rand : ℚ) : Option α :=
  jsIndex items ⌊rand * (items.length : ℚ)⌋

/-! ## Data model — the `Exercise` record

Modelled from the spec: the file `src/types/Exercise.ts` is not present
under `src/`; the record follows §3 of the spec (`id`, `type`, `prompt`,
`answer`, optional `choices`, optional `explanation`).  `choices` is a
`List String` where the empty list also covers an absent field: the code
only ever tests `exercise.choices?.length` for truthiness, and both
`undefined` and `0` are falsy, so the two cases are indistinguishable to
the component. -/
structure Exercise where
  id : String
  etype : String
  prompt : String
  answer : String
  choices : List String
  explanation : Option String
deriving DecidableEq, Repr

/-! ## Exercise interaction state machine — `src/components/ExerciseCard.tsx`

The three `useState` cells of `ExerciseCard`:

```ts
const [value, setValue] = useState("");
const [checked, setChecked] = useState(false);
const [isCorrect, setIsCorrect] = useState<boolean | null>(null);
```
-/

/-- The per-exercise interaction state owned by `ExerciseCard`. -/
structure CardState where
  value : String
  checked : Bool
  isCorrect : Option Bool
deriving DecidableEq, Repr

/-- The initial state, also installed by the reset effect that runs when
`exercise.id` changes (`setValue("")`, `setChecked(false)`,
`setIsCorrect(null)`). -/
def initialCard : CardState :=
  { value := "", checked := false, isCorrect := none }

/-- `setValue(v)`: direct value mutation — typing in the free-text input
(`onChange`) or clicking a choice button (`onClick={() => setValue(c)}`). -/
def setValue (s : CardState) (v : String) : CardState :=
  { s with value := v }

/-- `handleCheck`: judge the current value against the exercise's answer,
record the result and mark the state checked.  (The confetti / error-pulse
side effects are purely visual and carry no state.) -/
def handleCheck (ex : Exercise) (s : CardState) : CardState :=
  let ok := checkAnswer s.value ex.answer
  { s with isCorrect := some ok, checked := true }

/-- The "Check" button as the user can actually invoke it: its
`disabled={!value.trim()}` attribute prevents the click when the trimmed
value is empty, so the click fires `handleCheck` only on a non-empty
trimmed value. -/
def clickCheck (ex : Exercise) (s : CardState) : CardState :=
  if jsTrim s.value = "" then s else handleCheck ex s

/-- Result of a keyboard event: the new card state, plus whether the
`onNext` callback (advance) was invoked. -/
structure KeyResult where
  state : CardState
  advanceRequested : Bool
deriving DecidableEq, Repr

/-- `handleEnter`:

```ts
if (!checked) {
    if (value.trim()) handleCheck();
} else {
    onNext();
}
``` -/
def handleEnter (ex : Exercise) (s : CardState) : KeyResult :=
  if !s.checked then
    if jsTrim s.value ≠ "" then ⟨handleCheck ex s, false⟩ else ⟨s, false⟩
  else
    ⟨s, true⟩

/-- `exercise.choices.findIndex((c) => c === value)`: JavaScript
`findIndex`, returning `-1` when no element satisfies the predicate. -/
def jsFindIndex {α : Type} (p : α → Bool) : List α → ℤ
  | [] => -1
  | x :: xs => if p x then 0 else (if jsFindIndex p xs < 0 then -1 else jsFindIndex p xs + 1)

/-- The `ArrowDown`/`ArrowUp` branch of `handleKeyDown` (reached when the
key was neither `Enter` nor an in-range digit, in multiple-choice mode). -/
def arrowMove (ex : Exercise) (s : CardState) (key : String) : KeyResult :=
  if key = "ArrowDown" || key = "ArrowUp" then
    let len := ex.choices.length
    if len = 0 then ⟨s, false⟩
    else
      let currentIndex := jsFindIndex (fun c => c == s.value) ex.choices
      let cur : ℕ := if currentIndex ≥ 0 then currentIndex.toNat else 0
      let next : ℕ := if key = "ArrowDown" then (cur + 1) % len else (cur + len - 1) % len
      ⟨setValue s (ex.choices.getD next ""), false⟩
  else ⟨s, false⟩

/-- Accumulating decimal parser over the characters of a key name. -/
def parseDigits (acc : ℕ) : List Char → Option ℕ
  | [] => some acc
  | c :: cs =>
    if '0' ≤ c && c ≤ '9' then parseDigits (acc * 10 + (c.toNat - 48)) cs
    else none

/-- `Number(e.key)` restricted to the outcomes that matter to
`handleKeyDown`: a digit-string key parses to its number, every other key
name (multi-character names such as `"ArrowDown"`, letters, punctuation)
gives `NaN`, modelled `none`.  (`Number(" ")` is `0` in JavaScript, not
`NaN`; since `handleKeyDown` only acts when the parse is `≥ 1`, mapping it
to `none` is indistinguishable.) -/
def jsKeyNumber (key : String) : Option ℕ :=
  parseDigits 0 key.data

/-- `handleKeyDown` on the card container:

```ts
if (e.key === "Enter") { handleEnter(); return; }
if (exercise.choices?.length) {
    const n = Number(e.key);
    if (!Number.isNaN(n) && n >= 1 && n <= exercise.choices.length) {
        setValue(exercise.choices[n - 1]); return;
    }
    if (e.key === "ArrowDown" || e.key === "ArrowUp") { ... }
}
``` -/
def handleKeyDown (ex : Exercise) (s : CardState) (key : String) : KeyResult :=
  if key = "Enter" then handleEnter ex s
  else if ex.choices.length ≠ 0 then
    match jsKeyNumber key with
    | some n =>
      if 1 ≤ n ∧ n ≤ ex.choices.length then
        ⟨setValue s (ex.choices.getD (n - 1) ""), false⟩
      else arrowMove ex s key
    | none => arrowMove ex s key
  else ⟨s, false⟩

/-! ## Session orchestrator — `src/App.tsx`

```ts
function nextRandom() {
    // Evitar repetir el mismo si hay más de 1
    if (exercises.length <= 1) return;
    let next = pickRandom(exercises);
    while (next.id === current.id) next = pickRandom(exercises);
    setCurrent(next);
}
```

The `while` rejection loop consumes one `Math.random()` draw per
iteration; it is modelled with an explicit draw stream and a fuel bound,
`none` meaning the loop has not terminated within the given fuel (it
terminates as soon as a draw selects an exercise with a different id). -/

/-- The rejection loop of `nextRandom`: repeatedly `pickRandom` until the
picked exercise's id differs from `currentId`.  `k` indexes the next
unconsumed draw of the stream `rands`. -/
def nextRandomLoop (exercises : List Exercise) (currentId : String)
    (rands : ℕ → ℚ) : ℕ → ℕ → Option Exercise
  | 0, _ => none
  | fuel + 1, k =>
    match pickRandom exercises (rands k) with
    | none => none
    | some e =>
      if e.id = currentId then nextRandomLoop exercises currentId rands fuel (k + 1)
      else some e

/-- `nextRandom` from `App.tsx`: early return (current exercise kept) when
the pool has at most one member, otherwise reject-and-retry. -/
def nextRandom (exercises : List Exercise) (current : Exercise)
    (rands : ℕ → ℚ) (fuel : ℕ) : Option Exercise :=
  if exercises.length ≤ 1 then some current
  else nextRandomLoop exercises current.id rands fuel 0

/-- The combined top-level state: `App`'s `current` exercise plus the
card's interaction state. -/
structure AppState where
  current : Exercise
  card : CardState
deriving DecidableEq, Repr

/-- The advance operation on the combined state: `nextRandom` in `App.tsx`
followed, when `setCurrent` installed a new exercise, by `ExerciseCard`'s
reset effect (which runs because its dependency `exercise.id` changed —
`nextRandom` only ever installs an exercise whose id differs).  When the
pool has at most one member `nextRandom` returns early and nothing at all
happens. -/
def advance (exercises : List Exercise) (st : AppState)
    (rands : ℕ → ℚ) (fuel : ℕ) : Option AppState :=
  if exercises.length ≤ 1 then some st
  else
    match nextRandomLoop exercises st.current.id rands fuel 0 with
    | none => none
    | some e => some ⟨e, initialCard⟩

/-! ## Feedback animation engine — `shootConfetti` in `ExerciseCard.tsx`

```ts
const pieces = Array.from({ length: 120 }).map(() => ({
    x: safeCanvas.width / 2,
    y: safeCanvas.height / 3,
    vx: (Math.random() - 0.5) * 10,
    vy: Math.random() * -10 - 4,
    size: Math.random() * 6 + 4,
    rot: Math.random() * Math.PI,
    vr: (Math.random() - 0.5) * 0.25,
    life: 0,
    ttl: 90 + Math.floor(Math.random() * 60),
    hue: Math.floor(Math.random() * 360),
}));
```

Each piece consumes seven `Math.random()` draws in source order; piece `i`
uses draws `7*i` through `7*i+6` of the stream. -/

/-- The exact value of the double-precision constant `Math.PI`. -/
def jsMathPi : ℚ := 884279719003555 / 281474976710656

/-- One confetti particle. -/
structure Piece where
  x : ℚ
  y : ℚ
  vx : ℚ
  vy : ℚ
  size : ℚ
  rot : ℚ
  vr : ℚ
  life : ℚ
  ttl : ℚ
  hue : ℤ
deriving DecidableEq, Repr

/-- The burst spawned by `shootConfetti` on a canvas of the given width
and height. -/
def confettiPieces (w h : ℚ) (rands : ℕ → ℚ) : List Piece :=
  (List.range 120).map fun i =>
    { x := w / 2
      y := h / 3
      vx := (rands (7 * i) - 1/2) * 10
      vy := rands (7 * i + 1) * (-10) - 4
      size := rands (7 * i + 2) * 6 + 4
      rot := rands (7 * i + 3) * jsMathPi
      vr := (rands (7 * i + 4) - 1/2) * (1/4)
      life := 0
      ttl := 90 + (⌊rands (7 * i + 5) * 60⌋ : ℤ)
      hue := ⌊rands (7 * i + 6) * 360⌋ }

/-- One simulation step of a particle inside `tick`: age, gravity on the
vertical velocity, position integration with the updated vertical
velocity, rotation integration. -/
def stepPiece (p : Piece) : Piece :=
  { p with
    life := p.life + 1
    vy := p.vy + 7/20
    x := p.x + p.vx
    y := p.y + (p.vy + 7/20)
    rot := p.rot + p.vr }

/-- The linear fade `alpha = 1 - life / ttl`. -/
def pieceAlpha (p : Piece) : ℚ :=
  1 - p.life / p.ttl

/-- The pieces actually drawn in a frame: `tick` skips a piece once its
alpha is `≤ 0`. -/
def drawnPieces (ps : List Piece) : List Piece :=
  ps.filter fun p => 0 < pieceAlpha p

/-- How many times `tick` runs when the first invocation sees the frame
counter at `frame`: `tick` increments the counter, then schedules another
frame only while the incremented counter is `< 140`.  `shootConfetti`
starts the loop at `frame = 0`. -/
def confettiTicks (frame : ℕ) : ℕ :=
  if frame + 1 < 140 then 1 + confettiTicks (frame + 1) else 1
termination_by 140 - frame
decreasing_by omega

/-- The canvas content a tick leaves behind, as the list of pieces still
drawn: the surface is cleared at the top of every tick, the live pieces
are drawn, and the final tick (incremented counter at 140) ends with an
unconditional clear.  `frame` is the incremented counter, `ps` the pieces
after this tick's `stepPiece` updates. -/
def surfaceAfterTick (ps : List Piece) (frame : ℕ) : List Piece :=
  if frame < 140 then drawnPieces ps else []

/-! ## Concrete fixtures used in counterexamples and witnesses -/

/-- A multiple-choice exercise with three distinct choices. -/
def exMC : Exercise :=
  { id := "mc1", etype := "choice", prompt := "q", answer := "a"
    choices := ["a", "b", "c"], explanation := none }

/-- A free-text exercise with answer `"a"`. -/
def exFT : Exercise :=
  { id := "ft1", etype := "text", prompt := "q", answer := "a"
    choices := [], explanation := none }

/-- A second free-text exercise, with an id distinct from `exFT`. -/
def exFT2 : Exercise :=
  { id := "ft2", etype := "text", prompt := "q", answer := "b"
    choices := [], explanation := none }

/-- A combined state sitting on `exFT` with a checked, wrong, non-empty
answer. -/
def checkedApp : AppState :=
  { current := exFT, card := { value := "x", checked := true, isCorrect := some false } }

/-! ## C4 — matcher normalization -/

/-- C4 counterexample: the claim asserts `matches(" Dom  EK ", "domek")`
is true, but `checkAnswer` collapses the internal whitespace run to a
single space (it does not delete it): `" Dom  EK "` normalizes to
`"dom ek"`, which differs from `"domek"`, so the call returns false. -/
theorem claim4_counterexample : checkAnswer " Dom  EK " "domek" = false := by
  decide

/-- C4 (amended): two strings match iff their normalized forms (trim,
lower-case, collapse each internal whitespace run to one space) are
identical — in particular any pair with identical normalizations matches —
and the concrete example holds with the collapsed form `"dom ek"` as the
expected answer: `checkAnswer " Dom  EK " "dom ek"` is true. -/
theorem claim4_matcher_normalization :
    (∀ a b : String, normalize a = normalize b → checkAnswer a b = true) ∧
    checkAnswer " Dom  EK " "dom ek" = true := by
  refine ⟨fun a b h => ?_, by decide⟩
  simp [checkAnswer, h]

/-- C4 witness: the universal part of `claim4_matcher_normalization`
applied at the concrete pair `"ABC"` / `" abc "`, whose normalizations are
both `"abc"`. -/
theorem claim4_witness : checkAnswer "ABC" " abc " = true :=
  claim4_matcher_normalization.1 "ABC" " abc " (by decide)

/-! ## C5 — pickRandom on an empty sequence -/

/-- C5 counterexample: the claim asserts `pickRandom` fails with an
explicit error on an empty sequence; in fact the code computes
`Math.floor(Math.random() * 0) = 0` and evaluates `items[0]` on the empty
array, silently producing `undefined` (modelled `none`) — there is no
error path at all in `pickRandom.ts`. -/
theorem claim5_counterexample : pickRandom ([] : List Exercise) (1/2) = none := by
  norm_num [pickRandom, jsIndex]

/-- C5 (amended): `pickRandom` applied to an empty sequence does not
raise; for every random draw it performs the out-of-bounds access
`items[0]` and returns `undefined` (modelled `none`), an invalid value in
place of an element. -/
theorem claim5_empty_returns_undefined {α : Type} (r : ℚ) :
    pickRandom ([] : List α) r = none := by
  simp [pickRandom, jsIndex]

/-! ## C10 — pickRandom stays in bounds on non-empty input -/

/-- C10: for a non-empty list and a draw in `[0, 1)`, the index
`⌊rand * length⌋` lies in `[0, length)`, so `pickRandom` returns an
element of the list, never the out-of-bounds `undefined`. -/
theorem claim10_pickRandom_in_bounds {α : Type} (items : List α) (r : ℚ)
    (h0 : 0 ≤ r) (h1 : r < 1) (hne : items ≠ []) :
    ∃ x, pickRandom items r = some x ∧ x ∈ items := by
  have hlen : 0 < items.length := List.length_pos.mpr hne
  have hlenQ : (0 : ℚ) < (items.length : ℚ) := by exact_mod_cast hlen
  have hnn : (0 : ℚ) ≤ r * (items.length : ℚ) :=
    mul_nonneg h0 (le_of_lt hlenQ)
  have hfl0 : 0 ≤ ⌊r * (items.length : ℚ)⌋ := Int.floor_nonneg.mpr hnn
  have hlt : r * (items.length : ℚ) < (items.length : ℚ) := by
    calc r * (items.length : ℚ) < 1 * (items.length : ℚ) :=
          mul_lt_mul_of_pos_right h1 hlenQ
      _ = (items.length : ℚ) := one_mul _
  have hfl : ⌊r * (items.length : ℚ)⌋ < (items.length : ℤ) :=
    Int.floor_lt.mpr (by exact_mod_cast hlt)
  have hnat : (⌊r * (items.length : ℚ)⌋).toNat < items.length := by omega
  refine ⟨items.get ⟨(⌊r * (items.length : ℚ)⌋).toNat, hnat⟩, ?_, List.get_mem _ _ _⟩
  simp only [pickRandom, jsIndex, if_neg (not_lt.mpr hfl0)]
  exact List.get?_eq_get hnat

/-- C10 witness: `claim10_pickRandom_in_bounds` at the list `[10, 20, 30]`
and the draw `1/2` (index `⌊3/2⌋ = 1`). -/
theorem claim10_witness :
    ∃ x, pickRandom [10, 20, 30] (1/2 : ℚ) = some x ∧ x ∈ [10, 20, 30] :=
  claim10_pickRandom_in_bounds [10, 20, 30] (1/2)
    (by norm_num) (by norm_num) (by simp)

/-! ## C1 — arrow-key navigation in multiple-choice mode -/

theorem jsKeyNumber_arrowDown : jsKeyNumber "ArrowDown" = none := by decide

theorem jsKeyNumber_arrowUp : jsKeyNumber "ArrowUp" = none := by decide

/-- C1 counterexample: with three choices `["a", "b", "c"]` and no prior
selection (`initialCard` has the empty value, matching no choice),
`handleKeyDown` on `ArrowDown` sets the value to `"b"` — choice index 1 —
not to choice index 0 as claimed: the code takes index 0 as the *base* of
the move (`currentIndex >= 0 ? currentIndex : 0`) and then steps down from
it. -/
theorem claim1_counterexample :
    (handleKeyDown exMC initialCard "ArrowDown").state.value = "b" ∧
    exMC.choices.getD 0 "" = "a" ∧ ("b" : String) ≠ "a" := by
  decide

/-- C1 (amended): with three choices `[a, b, c]` (where `a ≠ b`, so the
second choice is genuinely a different selection) and a current value
selecting none of them, `ArrowDown` treats the missing selection as base
index 0 and moves down, selecting index 1; a further `ArrowDown` selects
index 2; `ArrowUp` from no selection wraps from base index 0 to index 2;
and `ArrowUp` while index 0 is selected also wraps to index 2. -/
theorem claim1_arrow_navigation (a b c : String) (ex : Exercise) (s : CardState)
    (hch : ex.choices = [a, b, c]) (hab : a ≠ b)
    (hsa : s.value ≠ a) (hsb : s.value ≠ b) (hsc : s.value ≠ c) :
    (handleKeyDown ex s "ArrowDown").state.value = b ∧
    (handleKeyDown ex (handleKeyDown ex s "ArrowDown").state "ArrowDown").state.value = c ∧
    (handleKeyDown ex s "ArrowUp").state.value = c ∧
    (handleKeyDown ex (setValue s a) "ArrowUp").state.value = c := by
  have pa : (a == s.value) = false := beq_eq_false_iff_ne.mpr (Ne.symm hsa)
  have pb : (b == s.value) = false := beq_eq_false_iff_ne.mpr (Ne.symm hsb)
  have pc : (c == s.value) = false := beq_eq_false_iff_ne.mpr (Ne.symm hsc)
  have pab : (a == b) = false := beq_eq_false_iff_ne.mpr hab
  have hdown1 : handleKeyDown ex s "ArrowDown" = ⟨setValue s b, false⟩ := by
    simp [handleKeyDown, jsKeyNumber_arrowDown, arrowMove, hch, jsFindIndex,
      pa, pb, pc]
  refine ⟨by rw [hdown1]; rfl, ?_, ?_, ?_⟩
  · rw [hdown1]
    simp only [handleKeyDown, jsKeyNumber_arrowDown, arrowMove, hch, jsFindIndex,
      setValue, pab]
    simp [jsFindIndex, setValue]
  · simp [handleKeyDown, jsKeyNumber_arrowUp, arrowMove, hch, jsFindIndex,
      pa, pb, pc, setValue]
  · simp [handleKeyDown, jsKeyNumber_arrowUp, arrowMove, hch, jsFindIndex,
      setValue]

/-- C1 witness: `claim1_arrow_navigation` at the fixture `exMC` (choices
`["a", "b", "c"]`) and the fresh state `initialCard` (empty value selects
no choice). -/
theorem claim1_witness :
    (handleKeyDown exMC initialCard "ArrowDown").state.value = "b" ∧
    (handleKeyDown exMC (handleKeyDown exMC initialCard "ArrowDown").state
      "ArrowDown").state.value = "c" ∧
    (handleKeyDown exMC initialCard "ArrowUp").state.value = "c" ∧
    (handleKeyDown exMC (setValue initialCard "a") "ArrowUp").state.value = "c" :=
  claim1_arrow_navigation "a" "b" "c" exMC initialCard (by rfl)
    (by decide) (by decide) (by decide) (by decide)

/-! ## C2 — check is a no-op on an empty trimmed value -/

/-- C2: when the trimmed current value is empty, the check operation as
the user can invoke it is a no-op: the Check button is disabled
(`disabled={!value.trim()}`), so the click leaves the state untouched
(`hasChecked` is not set, `isCorrect` is not set), and the Enter route in
the unchecked state falls through its `if (value.trim())` guard without
checking or advancing. -/
theorem claim2_check_empty_noop (ex : Exercise) (s : CardState)
    (h : jsTrim s.value = "") :
    clickCheck ex s = s ∧
    (clickCheck ex s).checked = s.checked ∧
    (clickCheck ex s).isCorrect = s.isCorrect ∧
    (s.checked = false → handleKeyDown ex s "Enter" = ⟨s, false⟩) := by
  have hc : clickCheck ex s = s := by simp [clickCheck, h]
  refine ⟨hc, by rw [hc], by rw [hc], fun hch => ?_⟩
  simp [handleKeyDown, handleEnter, hch, h]

/-- C2 witness: `claim2_check_empty_noop` at `exFT` and a fresh state
holding the whitespace-only value `"   "` (whose trim is empty). -/
theorem claim2_witness :
    clickCheck exFT (setValue initialCard "   ") = setValue initialCard "   " ∧
    (clickCheck exFT (setValue initialCard "   ")).checked =
      (setValue initialCard "   ").checked ∧
    (clickCheck exFT (setValue initialCard "   ")).isCorrect =
      (setValue initialCard "   ").isCorrect ∧
    ((setValue initialCard "   ").checked = false →
      handleKeyDown exFT (setValue initialCard "   ") "Enter" =
        ⟨setValue initialCard "   ", false⟩) :=
  claim2_check_empty_noop exFT (setValue initialCard "   ") (by decide)

/-! ## C3 — the Checked state is not terminal for `isCorrect` -/

/-- C3 counterexample: on `exFT` (answer `"a"`), checking the value `"a"`
reaches the Checked state with `isCorrect = some true`; a subsequent
`setValue "b"` followed by another click on the still-enabled Check button
re-evaluates and flips `isCorrect` to `some false` — so a `check()` while
already Checked is not a no-op and does change `isCorrect`. -/
theorem claim3_counterexample :
    (clickCheck exFT (setValue initialCard "a")).checked = true ∧
    (clickCheck exFT (setValue initialCard "a")).isCorrect = some true ∧
    (clickCheck exFT (setValue (clickCheck exFT (setValue initialCard "a")) "b")).isCorrect
      = some false := by
  decide

/-- C3 (amended): once Checked, `setAnswerValue` leaves both `isCorrect`
and `hasChecked` unchanged, and Enter performs advance rather than check;
`hasChecked` itself never reverts (a further check keeps it true); but the
Check button remains enabled while the value is non-empty, and clicking it
re-evaluates the current value, which can change `isCorrect`. -/
theorem claim3_checked_state (ex : Exercise) (s : CardState) (v : String)
    (h : s.checked = true) :
    (setValue s v).isCorrect = s.isCorrect ∧
    (setValue s v).checked = s.checked ∧
    handleKeyDown ex s "Enter" = ⟨s, true⟩ ∧
    (clickCheck ex s).checked = true := by
  refine ⟨rfl, rfl, ?_, ?_⟩
  · simp [handleKeyDown, handleEnter, h]
  · by_cases he : jsTrim s.value = ""
    · simp [clickCheck, he, h]
    · simp [clickCheck, he, handleCheck]

/-- C3 witness: `claim3_checked_state` at `exFT` and the checked state
reached by checking the correct answer `"a"`. -/
theorem claim3_witness :
    (setValue (clickCheck exFT (setValue initialCard "a")) "b").isCorrect =
      (clickCheck exFT (setValue initialCard "a")).isCorrect ∧
    (setValue (clickCheck exFT (setValue initialCard "a")) "b").checked =
      (clickCheck exFT (setValue initialCard "a")).checked ∧
    handleKeyDown exFT (clickCheck exFT (setValue initialCard "a")) "Enter" =
      ⟨clickCheck exFT (setValue initialCard "a"), true⟩ ∧
    (clickCheck exFT (clickCheck exFT (setValue initialCard "a"))).checked = true :=
  claim3_checked_state exFT (clickCheck exFT (setValue initialCard "a")) "b" (by decide)

/-! ## C6 — Enter routing -/

/-- C6: `Enter` routes exactly as claimed in every state: not yet checked
with a non-empty trimmed value — perform the check; not yet checked with
an empty trimmed value — no-op; already checked — invoke the advance
callback `onNext` with the card state untouched (the reset then happens on
the exercise change). -/
theorem claim6_enter_routing (ex : Exercise) (s : CardState) :
    (s.checked = false → jsTrim s.value ≠ "" →
      handleKeyDown ex s "Enter" = ⟨handleCheck ex s, false⟩) ∧
    (s.checked = false → jsTrim s.value = "" →
      handleKeyDown ex s "Enter" = ⟨s, false⟩) ∧
    (s.checked = true → handleKeyDown ex s "Enter" = ⟨s, true⟩) := by
  refine ⟨fun hc hv => ?_, fun hc hv => ?_, fun hc => ?_⟩
  · simp [handleKeyDown, handleEnter, hc, hv]
  · simp [handleKeyDown, handleEnter, hc, hv]
  · simp [handleKeyDown, handleEnter, hc]

/-- C6 witness: `claim6_enter_routing` at `exFT` in its three regimes —
unchecked with value `"a"` (checks), unchecked with the empty value
(no-op), and a checked state (advances). -/
theorem claim6_witness :
    handleKeyDown exFT (setValue initialCard "a") "Enter" =
      ⟨handleCheck exFT (setValue initialCard "a"), false⟩ ∧
    handleKeyDown exFT initialCard "Enter" = ⟨initialCard, false⟩ ∧
    handleKeyDown exFT (clickCheck exFT (setValue initialCard "a")) "Enter" =
      ⟨clickCheck exFT (setValue initialCard "a"), true⟩ :=
  ⟨(claim6_enter_routing exFT (setValue initialCard "a")).1 (by decide) (by decide),
   (claim6_enter_routing exFT initialCard).2.1 (by decide) (by decide),
   (claim6_enter_routing exFT (clickCheck exFT (setValue initialCard "a"))).2.2 (by decide)⟩

/-! ## C7 — advance picks a distinct exercise when the pool exceeds one -/

/-- Whatever exercise the rejection loop of `nextRandom` finally accepts
has an id different from the rejected one: the loop only ever exits the
retry branch on `next.id !== current.id`. -/
theorem nextRandomLoop_id_ne (exercises : List Exercise) (currentId : String)
    (rands : ℕ → ℚ) :
    ∀ fuel k e, nextRandomLoop exercises currentId rands fuel k = some e →
      e.id ≠ currentId := by
  intro fuel
  induction fuel with
  | zero => intro k e h; simp [nextRandomLoop] at h
  | succ n ih =>
    intro k e h
    cases hp : pickRandom exercises (rands k) with
    | none => simp only [nextRandomLoop, hp] at h; exact absurd h (by simp)
    | some e2 =>
      simp only [nextRandomLoop, hp] at h
      by_cases hid : e2.id = currentId
      · rw [if_pos hid] at h
        exact ih (k + 1) e h
      · rw [if_neg hid] at h
        cases h
        exact hid

/-- C7: whenever the pool has more than one member and the reject-and-
retry loop of `nextRandom` terminates on some exercise, that exercise's id
differs from the current exercise's id. -/
theorem claim7_advance_distinct_id (exercises : List Exercise)
    (current : Exercise) (rands : ℕ → ℚ) (fuel : ℕ) (e : Exercise)
    (hpool : 1 < exercises.length)
    (h : nextRandom exercises current rands fuel = some e) :
    e.id ≠ current.id := by
  rw [nextRandom, if_neg (by omega)] at h
  exact nextRandomLoop_id_ne exercises current.id rands fuel 0 e h

/-- C7 witness: `claim7_advance_distinct_id` on the two-element pool
`[exFT, exFT2]` with current exercise `exFT`: the draw `3/4` selects index
`⌊3/2⌋ = 1`, so `nextRandom` yields `exFT2`, whose id differs. -/
theorem claim7_witness :
    nextRandom [exFT, exFT2] exFT (fun _ => 3/4) 1 = some exFT2 ∧
    exFT2.id ≠ exFT.id := by
  have heval : nextRandom [exFT, exFT2] exFT (fun _ => 3/4) 1 = some exFT2 := by
    norm_num [nextRandom, nextRandomLoop, pickRandom, jsIndex, exFT, exFT2]
    intro hfalse
    exact absurd hfalse (by decide)
  exact ⟨heval,
    claim7_advance_distinct_id [exFT, exFT2] exFT (fun _ => 3/4) 1 exFT2
      (by norm_num) heval⟩

/-! ## C8 — advance resets the interaction state -/

/-- C8 counterexample: the claim asserts advance resets the interaction
state from every prior state, but with a singleton pool `nextRandom`
returns early (`if (exercises.length <= 1) return;`): no new exercise is
installed, the reset effect never runs, and a checked, non-empty state
survives the advance unchanged. -/
theorem claim8_counterexample :
    advance [exFT] checkedApp (fun _ => 0) 1 = some checkedApp ∧
    checkedApp.card.checked = true ∧
    checkedApp.card.value = "x" ∧
    checkedApp.card.isCorrect = some false := by
  refine ⟨?_, by decide, by decide, by decide⟩
  simp [advance]

/-- C8 (amended): whenever the pool has more than one member — so that
`nextRandom` actually installs an exercise with a new id and the card's
reset effect fires — advance resets the interaction state: the value
becomes empty, `hasChecked` becomes false and `isCorrect` becomes unknown,
regardless of the prior state.  (With a pool of at most one member advance
is a complete no-op and resets nothing.) -/
theorem claim8_advance_resets (exercises : List Exercise) (st st' : AppState)
    (rands : ℕ → ℚ) (fuel : ℕ)
    (hpool : 1 < exercises.length)
    (h : advance exercises st rands fuel = some st') :
    st'.card = initialCard ∧
    st'.card.value = "" ∧
    st'.card.checked = false ∧
    st'.card.isCorrect = none := by
  rw [advance, if_neg (by omega)] at h
  cases hl : nextRandomLoop exercises st.current.id rands fuel 0 with
  | none => rw [hl] at h; exact absurd h (by simp)
  | some e =>
    rw [hl] at h
    cases h
    exact ⟨rfl, rfl, rfl, rfl⟩

/-- C8 witness: `claim8_advance_resets` on the two-element pool
`[exFT, exFT2]` starting from the checked dirty state `checkedApp`: the
draw `3/4` installs `exFT2` and the card comes back fresh. -/
theorem claim8_witness :
    advance [exFT, exFT2] checkedApp (fun _ => 3/4) 1 = some ⟨exFT2, initialCard⟩ ∧
    (⟨exFT2, initialCard⟩ : AppState).card = initialCard ∧
    (⟨exFT2, initialCard⟩ : AppState).card.value = "" ∧
    (⟨exFT2, initialCard⟩ : AppState).card.checked = false ∧
    (⟨exFT2, initialCard⟩ : AppState).card.isCorrect = none := by
  have heval : advance [exFT, exFT2] checkedApp (fun _ => 3/4) 1 =
      some ⟨exFT2, initialCard⟩ := by
    norm_num [advance, nextRandomLoop, pickRandom, jsIndex, exFT, exFT2, checkedApp]
    rw [if_neg (by decide : ¬ ("ft2" : String) = "ft1")]
  have hr := claim8_advance_resets [exFT, exFT2] checkedApp ⟨exFT2, initialCard⟩
    (fun _ => 3/4) 1 (by norm_num) heval
  exact ⟨heval, hr.1, hr.2.1, hr.2.2.1, hr.2.2.2⟩

/-! ## C9 — confetti burst size, time-to-live, and self-termination -/

/-- Auxiliary count for the `tick` recursion: a tick seeing the frame
counter at `f` with `f + d + 1 = 140` runs `d + 1` more times. -/
theorem confettiTicks_eq (d : ℕ) :
    ∀ f : ℕ, f + d + 1 = 140 → confettiTicks f = d + 1 := by
  induction d with
  | zero =>
    intro f hf
    rw [confettiTicks, if_neg (by omega)]
  | succ n ih =>
    intro f hf
    rw [confettiTicks, if_pos (by omega), ih (f + 1) (by omega)]
    omega

/-- C9: each `shootConfetti` run spawns exactly 120 particles; with every
random draw in `[0, 1)` each particle's time-to-live
`90 + Math.floor(random * 60)` lies in `[90, 150)`; the
`requestAnimationFrame` loop started at frame 0 executes exactly 140
ticks and schedules no further frame; and the tick whose incremented
frame counter reaches 140 leaves the surface cleared, whatever particles
are still alive. -/
theorem claim9_confetti (w h : ℚ) (rands : ℕ → ℚ)
    (hr : ∀ n, 0 ≤ rands n ∧ rands n < 1) :
    (confettiPieces w h rands).length = 120 ∧
    (∀ p ∈ confettiPieces w h rands, 90 ≤ p.ttl ∧ p.ttl < 150) ∧
    confettiTicks 0 = 140 ∧
    (∀ ps : List Piece, surfaceAfterTick ps 140 = []) := by
  refine ⟨by simp [confettiPieces], ?_, confettiTicks_eq 139 0 (by omega), ?_⟩
  · intro p hp
    simp only [confettiPieces, List.mem_map, List.mem_range] at hp
    obtain ⟨i, -, rfl⟩ := hp
    obtain ⟨h0, h1⟩ := hr (7 * i + 5)
    have hnn : (0 : ℤ) ≤ ⌊rands (7 * i + 5) * 60⌋ :=
      Int.floor_nonneg.mpr (by positivity)
    have hlt : ⌊rands (7 * i + 5) * 60⌋ < (60 : ℤ) := by
      apply Int.floor_lt.mpr
      push_cast
      nlinarith
    constructor
    · simp only []
      have : (0 : ℚ) ≤ (⌊rands (7 * i + 5) * 60⌋ : ℤ) := by exact_mod_cast hnn
      linarith
    · simp only []
      have : ((⌊rands (7 * i + 5) * 60⌋ : ℤ) : ℚ) < 60 := by exact_mod_cast hlt
      linarith
  · intro ps
    simp [surfaceAfterTick]

/-- C9 witness: `claim9_confetti` on a 200 × 200 surface with the
constant draw stream `1/2`. -/
theorem claim9_witness :
    (confettiPieces 200 200 (fun _ => 1/2)).length = 120 ∧
    (∀ p ∈ confettiPieces 200 200 (fun _ => 1/2), 90 ≤ p.ttl ∧ p.ttl < 150) ∧
    confettiTicks 0 = 140 ∧
    (∀ ps : List Piece, surfaceAfterTick ps 140 = []) :=
  claim9_confetti 200 200 (fun _ => 1/2) (fun _ => by norm_num)

end PolishTrainer
